import Mathlib

/-!
Verification development for the content-rewriting HTTP proxy in
`src/app/api/proxy/route.ts`.

The TypeScript route is shallowly embedded below: every function of the
route (cookie store, content classification, the regex-based URL rewrite
engine, redirect following, and the request pipeline) is translated into
an executable Lean definition.  JavaScript regular-expression `replace`
calls are embedded as character-list scanners that reproduce the
semantics of the concrete patterns appearing in the source (leftmost
match, greedy quantifiers with the backtracking behaviour those concrete
patterns exhibit, global continuation after each match).  Platform
primitives used by the route (`encodeURIComponent`, the WHATWG `URL`
constructor, `String.prototype.startsWith` / `includes` / `split`) are
modelled by faithful Lean counterparts; the `URL` model covers the
host-based (`scheme://host...`) URLs this code ever treats as parseable
and reports `none` where the platform constructor would throw (or where
it would yield an origin of "null", which this code treats identically
to a throw: both leave the reference unrewritten / stop redirecting).
-/

namespace Proxy

/-! ### Basic string helpers (models of JS string primitives) -/

/-- Model of `String.prototype.toLowerCase` (ASCII-relevant part). -/
def lowerStr (s : String) : String :=
  ⟨s.data.map Char.toLower⟩

/-- Does `pat` occur as a contiguous sublist of `cs`?
Model of `String.prototype.includes`. -/
def listContains (pat : List Char) : List Char → Bool
  | [] => pat.isEmpty
  | c :: tl => pat.isPrefixOf (c :: tl) || listContains pat tl

/-- Model of `s.includes(pat)`. -/
def strIncludes (s pat : String) : Bool :=
  listContains pat.data s.data

/-- Model of `s.startsWith(pat)`. -/
def strStarts (s pat : String) : Bool :=
  pat.data.isPrefixOf s.data

/-- Consume a case-sensitive literal, returning the rest. -/
def dropLit (lit cs : List Char) : Option (List Char) :=
  if lit.isPrefixOf cs then some (cs.drop lit.length) else none

/-- Consume a case-insensitive literal (ASCII folding, as in the `i`
regex flag on the patterns in the source), returning the rest. -/
def dropLitCI : List Char → List Char → Option (List Char)
  | [], cs => some cs
  | _ :: _, [] => none
  | l :: lit, c :: cs =>
      if c.toLower = l.toLower then dropLitCI lit cs else none

/-- `startsCI lit cs`: case-insensitive prefix test. -/
def startsCI (lit : String) (cs : List Char) : Bool :=
  (dropLitCI lit.data cs).isSome

/-- Greedy nonempty run of characters satisfying `p` (a `[...]+` atom). -/
def takeWhile1 (p : Char → Bool) (cs : List Char) : Option (List Char × List Char) :=
  let run := cs.takeWhile p
  if run.isEmpty then none else some (run, cs.drop run.length)

def isQuote (c : Char) : Bool :=
  c = '"' || c = Char.ofNat 39

/-- The `\s` character class (ASCII part). -/
def isSpaceChar (c : Char) : Bool :=
  c = ' ' || c = Char.ofNat 9 || c = Char.ofNat 10 || c = Char.ofNat 13 ||
  c = Char.ofNat 11 || c = Char.ofNat 12

/-! ### `encodeURIComponent` (ECMA-262) -/

def hexDigit (n : Nat) : Char :=
  if n < 10 then Char.ofNat (48 + n) else Char.ofNat (55 + n)

def percentByte (b : Nat) : List Char :=
  ['%', hexDigit (b / 16), hexDigit (b % 16)]

/-- UTF-8 bytes of a character, as `encodeURIComponent` percent-encodes them. -/
def utf8Bytes (c : Char) : List Nat :=
  let n := c.toNat
  if n < 128 then [n]
  else if n < 2048 then [192 + n / 64, 128 + n % 64]
  else if n < 65536 then [224 + n / 4096, 128 + (n / 64) % 64, 128 + n % 64]
  else [240 + n / 262144, 128 + (n / 4096) % 64, 128 + (n / 64) % 64, 128 + n % 64]

/-- Characters `encodeURIComponent` leaves unescaped. -/
def isUnreservedURI (c : Char) : Bool :=
  c.isAlpha || c.isDigit ||
  c ∈ ['-', '_', '.', '!', '~', '*', Char.ofNat 39, '(', ')']

/-- Model of `encodeURIComponent`. -/
def encodeURIComponent (s : String) : String :=
  ⟨s.data.flatMap fun c =>
    if isUnreservedURI c then [c] else (utf8Bytes c).flatMap percentByte⟩

/-! ### WHATWG `URL` model (host-based URLs) -/

structure URLModel where
  scheme : String
  host : String
  path : String
  query : String
  fragment : String
deriving DecidableEq

def URLModel.origin (u : URLModel) : String :=
  u.scheme ++ "://" ++ u.host

def URLModel.href (u : URLModel) : String :=
  u.origin ++ (if u.path = "" then "/" else u.path) ++ u.query ++ u.fragment

def isSchemeChar (c : Char) : Bool :=
  c.isAlpha || c.isDigit || c = '+' || c = '-' || c = '.'

/-- Split a leading `scheme:` off a URL string, if present. -/
def splitScheme (cs : List Char) : Option (List Char × List Char) :=
  let s := cs.takeWhile isSchemeChar
  match s with
  | [] => none
  | c :: _ =>
      if c.isAlpha then
        match cs.drop s.length with
        | ':' :: rest => some (s, rest)
        | _ => none
      else none

/-- Model of `new URL(s)` restricted to host-based (`scheme://host...`)
URLs; `none` where the platform constructor throws, and also for
non-host-based URLs (`mailto:`, `urn:`, ...), whose "null" origin this
code treats exactly like a parse failure. -/
def URLModel.parse (s : String) : Option URLModel :=
  match splitScheme s.data with
  | none => none
  | some (sch, rest) =>
    match rest with
    | '/' :: '/' :: rest2 =>
      let host := rest2.takeWhile fun c => c ≠ '/' && c ≠ '?' && c ≠ '#'
      if host.isEmpty then none
      else
        let rest3 := rest2.drop host.length
        let path := rest3.takeWhile fun c => c ≠ '?' && c ≠ '#'
        let rest4 := rest3.drop path.length
        let query := rest4.takeWhile fun c => c ≠ '#'
        let frag := rest4.drop query.length
        some ⟨⟨sch.map Char.toLower⟩, ⟨host.map Char.toLower⟩, ⟨path⟩, ⟨query⟩, ⟨frag⟩⟩
    | _ => none

/-- Split on `/`, keeping empty segments. -/
def splitSlash : List Char → List (List Char)
  | [] => [[]]
  | '/' :: tl => [] :: splitSlash tl
  | c :: tl =>
    match splitSlash tl with
    | s :: ss => (c :: s) :: ss
    | [] => [[c]]

/-- Dot-segment normalization of an absolute path (`/...`), as the
WHATWG path parser performs it. -/
def normalizePath (p : List Char) : List Char :=
  match p with
  | '/' :: rest =>
    let segs := splitSlash rest
    let step := fun (acc : List (List Char)) (seg : List Char) =>
      if seg = ['.'] then acc
      else if seg = ['.', '.'] then acc.tail
      else seg :: acc
    let core := (segs.foldl step []).reverse
    let core :=
      if segs.getLast? = some ['.'] || segs.getLast? = some ['.', '.'] then
        core ++ [[]]
      else core
    '/' :: List.intercalate ['/'] core
  | _ => p

/-- Directory part of a path: up to and including the last `/`. -/
def dirOf (p : List Char) : List Char :=
  let r := (p.reverse.dropWhile (· ≠ '/')).reverse
  if r.isEmpty then ['/'] else r

/-- Model of `new URL(loc, base).href`: relative-URL resolution.
`none` models a thrown `TypeError` (and non-host-based results, see
`URLModel.parse`). -/
def resolveUrl (loc base : String) : Option String :=
  match URLModel.parse loc with
  | some u => some u.href
  | none =>
    if (splitScheme loc.data).isSome then none
    else
      match URLModel.parse base with
      | none => none
      | some b =>
        match loc.data with
        | '/' :: '/' :: _ => (URLModel.parse (b.scheme ++ ":" ++ loc)).map URLModel.href
        | '/' :: _ =>
          let path := loc.data.takeWhile fun c => c ≠ '?' && c ≠ '#'
          let rest := loc.data.drop path.length
          let query := rest.takeWhile fun c => c ≠ '#'
          let frag := rest.drop query.length
          some (URLModel.href ⟨b.scheme, b.host, ⟨normalizePath path⟩, ⟨query⟩, ⟨frag⟩⟩)
        | '?' :: _ =>
          let query := loc.data.takeWhile fun c => c ≠ '#'
          let frag := loc.data.drop query.length
          some (URLModel.href ⟨b.scheme, b.host, b.path, ⟨query⟩, ⟨frag⟩⟩)
        | '#' :: _ => some (URLModel.href ⟨b.scheme, b.host, b.path, b.query, ⟨loc.data⟩⟩)
        | [] => some (URLModel.href ⟨b.scheme, b.host, b.path, b.query, ""⟩)
        | _ =>
          let relPath := loc.data.takeWhile fun c => c ≠ '?' && c ≠ '#'
          let rest := loc.data.drop relPath.length
          let query := rest.takeWhile fun c => c ≠ '#'
          let frag := rest.drop query.length
          some (URLModel.href
            ⟨b.scheme, b.host, ⟨normalizePath (dirOf b.path.data ++ relPath)⟩, ⟨query⟩, ⟨frag⟩⟩)

/-! ### Session Store (`storedCookies`, `updateCookies`, `getCookieHeader`) -/

/-- `cookie.split('=')[0]`: the substring before the first `=`
(the whole string when no `=` occurs). -/
def cookieName (cookie : String) : String :=
  ⟨cookie.data.takeWhile (· ≠ '=')⟩

/-- `cookie.split(';')[0]`: the substring before the first `;`. -/
def cookieValue (cookie : String) : String :=
  ⟨cookie.data.takeWhile (· ≠ ';')⟩

/-- One iteration of the `forEach` body in `updateCookies`:
`storedCookies = storedCookies.filter(c => !c.startsWith(cookieName + '='));
storedCookies.push(cookie.split(';')[0])`. -/
def recordCookie (store : List String) (cookie : String) : List String :=
  (store.filter fun c => !((cookieName cookie ++ "=").data.isPrefixOf c.data))
    ++ [cookieValue cookie]

/-- An upstream `Response` as this route observes it: status, the
`location` header, `headers.getSetCookie()`, the `content-type` header,
and the body text/bytes. -/
structure Response where
  status : Nat
  location : Option String
  setCookies : List String
  contentType : Option String
  body : String
deriving DecidableEq

/-- `updateCookies(response)` acting on an explicit store (the module's
`storedCookies` global).  The `if (setCookies.length > 0)` guard of the
source is a no-op around the `forEach` and is absorbed by the fold. -/
def updateCookies (store : List String) (response : Response) : List String :=
  response.setCookies.foldl recordCookie store

/-- `getCookieHeader()`: `storedCookies.join('; ')`. -/
def getCookieHeader (store : List String) : String :=
  String.intercalate "; " store

/-! ### Content classification -/

/-- `getContentType`: `response.headers.get('content-type') || 'text/plain'`
(JS falsiness: an absent header and an empty header both fall back). -/
def getContentType (r : Response) : String :=
  match r.contentType with
  | none => "text/plain"
  | some ct => if ct = "" then "text/plain" else ct

def shouldRewriteHtml (contentType : String) : Bool :=
  strIncludes (lowerStr contentType) "text/html"

def isCssContent (contentType : String) : Bool :=
  strIncludes (lowerStr contentType) "text/css"

def isJsContent (contentType : String) : Bool :=
  strIncludes (lowerStr contentType) "javascript" ||
  strIncludes (lowerStr contentType) "application/x-javascript"

/-! ### Regex-replace scanner

Embedding of `String.prototype.replace(regex-with-g-flag, fn)`: scan
left to right; at each position try the pattern matcher; on a match emit
the replacement and continue after the matched text, otherwise copy one
character and move on.  Every pattern in the source matches at least one
character, so fuel `cs.length` is never exhausted. -/

def replaceScanAux (f : List Char → Option (List Char × List Char)) :
    Nat → List Char → List Char
  | 0, cs => cs
  | _ + 1, [] => []
  | n + 1, c :: cs =>
    match f (c :: cs) with
    | some (repl, rest) => repl ++ replaceScanAux f n rest
    | none => c :: replaceScanAux f n cs

def replaceScan (f : List Char → Option (List Char × List Char)) (s : String) : String :=
  ⟨replaceScanAux f s.data.length s.data⟩

/-- Greedy `[^>]*` backtracking: find the LAST position inside the run
of non-`>` characters at which `p` succeeds (this is exactly what the
greedy star in `<form[^>]*action=...`-style patterns selects); returns
the characters consumed by the star and `p`'s output. -/
def lastAttrMatch {α : Type} (p : List Char → Option α) : List Char → Option (List Char × α)
  | [] => (p []).map fun a => ([], a)
  | c :: cs =>
    let deeper :=
      if c = '>' then none
      else (lastAttrMatch p cs).map fun x => (c :: x.1, x.2)
    match deeper with
    | some x => some x
    | none => (p (c :: cs)).map fun a => ([], a)

/-- Matcher for `attrLit` (case-insensitive, e.g. `action=`) followed by
a quote, a nonempty `[^"']+` value, and a closing quote (either kind).
Returns (original attribute text + opening quote, value, closing quote,
rest). -/
def parseAttrValue (attrLit : List Char) (cs : List Char) :
    Option (List Char × List Char × Char × List Char) :=
  match dropLitCI attrLit cs with
  | none => none
  | some r1 =>
    match r1 with
    | q :: r2 =>
      if isQuote q then
        match takeWhile1 (fun c => !(isQuote c)) r2 with
        | some (val, q2 :: r3) =>
          if isQuote q2 then some (cs.take (attrLit.length + 1), val, q2, r3) else none
        | _ => none
      else none
    | [] => none

/-- Like `parseAttrValue` but the value is `[^"'#]+` (the anchor
pattern); a `#` ends the value and, not being a quote, fails the match
(all greedy backtracks fail the same way). -/
def parseAttrValueNoHash (attrLit : List Char) (cs : List Char) :
    Option (List Char × List Char × Char × List Char) :=
  match dropLitCI attrLit cs with
  | none => none
  | some r1 =>
    match r1 with
    | q :: r2 =>
      if isQuote q then
        match takeWhile1 (fun c => !(isQuote c) && c ≠ '#') r2 with
        | some (val, q2 :: r3) =>
          if isQuote q2 then some (cs.take (attrLit.length + 1), val, q2, r3) else none
        | _ => none
      else none
    | [] => none

/-! ### `rewriteRelativeUrls` -/

/-- Pattern 1 of `rewriteRelativeUrls`:
`/(['"])(\/\/[^'"]+)(['"])/g` with replacement `$1https:$2$3`. -/
def m1ProtoRel (cs : List Char) : Option (List Char × List Char) :=
  match cs with
  | q :: '/' :: '/' :: rest =>
    if isQuote q then
      match takeWhile1 (fun c => !(isQuote c)) rest with
      | some (run, q2 :: rest2) =>
        if isQuote q2 then
          some ([q] ++ "https:".data ++ ['/', '/'] ++ run ++ [q2], rest2)
        else none
      | _ => none
    else none
  | _ => none

/-- Patterns 2a/2b of `rewriteRelativeUrls`:
`/(href|src|action)="\/(?!\/)/g` (and the single-quote twin), replaced
by `$1="<origin>/`.  `q` is the concrete quote of the pattern. -/
def m2AbsPath (origin : List Char) (q : Char) (cs : List Char) :
    Option (List Char × List Char) :=
  let tryAttr := fun (attr : List Char) =>
    match dropLit attr cs with
    | none => none
    | some r1 =>
      match r1 with
      | '=' :: qq :: '/' :: r2 =>
        if qq = q then
          match r2 with
          | '/' :: _ => none
          | _ => some (attr ++ ['=', q] ++ origin ++ ['/'], r2)
        else none
      | _ => none
  tryAttr "href".data <|> tryAttr "src".data <|> tryAttr "action".data

/-- Pattern 3 of `rewriteRelativeUrls`:
`/(href|src|action)=["'](?!https?:\/\/|\/\/|\/|#|data:|javascript:)([^"']+)["']/gi`
with callback resolving the value against `targetUrl`; on a resolution
throw the match is returned unchanged. -/
def m3Relative (targetUrl : String) (cs : List Char) : Option (List Char × List Char) :=
  let tryAttr := fun (attr : List Char) =>
    match dropLitCI attr cs with
    | none => none
    | some r1 =>
      match r1 with
      | '=' :: q :: r2 =>
        if isQuote q then
          if startsCI "http://" r2 || startsCI "https://" r2 || startsCI "//" r2 ||
             startsCI "/" r2 || startsCI "#" r2 || startsCI "data:" r2 ||
             startsCI "javascript:" r2 then none
          else
            match takeWhile1 (fun c => !(isQuote c)) r2 with
            | some (val, q2 :: r3) =>
              if isQuote q2 then
                let origAttr := cs.take attr.length
                match resolveUrl ⟨val⟩ targetUrl with
                | some abs => some (origAttr ++ ['=', '"'] ++ abs.data ++ ['"'], r3)
                | none => some (origAttr ++ ['=', q] ++ val ++ [q2], r3)
              else none
            | _ => none
        else none
      | _ => none
  tryAttr "href".data <|> tryAttr "src".data <|> tryAttr "action".data

/-- `rewriteRelativeUrls(html, targetUrl)`; `none` models the throw of
`new URL(targetUrl)` on an unparseable target. -/
def rewriteRelativeUrls (html targetUrl : String) : Option String :=
  (URLModel.parse targetUrl).map fun base =>
    let r1 := replaceScan m1ProtoRel html
    let r2 := replaceScan (m2AbsPath base.origin.data '"') r1
    let r3 := replaceScan (m2AbsPath base.origin.data (Char.ofNat 39)) r2
    replaceScan (m3Relative targetUrl) r3

/-! ### `rewriteFormActions`, `rewriteResourceLinks`, `rewriteAnchorLinks` -/

/-- `/(<form[^>]*action=["'])([^"']+)(["'])/gi` with replacement
`$1<proxyBase>/api/proxy?url=<encoded>$3`. -/
def mForm (proxyBaseUrl : String) (cs : List Char) : Option (List Char × List Char) :=
  match dropLitCI "<form".data cs with
  | none => none
  | some r1 =>
    match lastAttrMatch (parseAttrValue "action=".data) r1 with
    | none => none
    | some (gap, origAttrQ, val, q2, rest) =>
      let origTag := cs.take 5
      some (origTag ++ gap ++ origAttrQ ++
        (proxyBaseUrl ++ "/api/proxy?url=" ++ encodeURIComponent ⟨val⟩).data ++ [q2], rest)

def rewriteFormActions (html proxyBaseUrl : String) : String :=
  replaceScan (mForm proxyBaseUrl) html

/-- `/(<(?:img|script)[^>]*src=["'])([^"']+)(["'])/gi`, skipping `data:`
URLs and already-proxied URLs. -/
def mSrcResource (proxyBaseUrl : String) (cs : List Char) : Option (List Char × List Char) :=
  let tryTag := fun (tag : List Char) =>
    match dropLitCI tag cs with
    | none => none
    | some r1 =>
      match lastAttrMatch (parseAttrValue "src=".data) r1 with
      | none => none
      | some (gap, origAttrQ, val, q2, rest) =>
        let origTag := cs.take tag.length
        if strStarts ⟨val⟩ "data:" || listContains "/api/proxy?url=".data val then
          some (origTag ++ gap ++ origAttrQ ++ val ++ [q2], rest)
        else
          some (origTag ++ gap ++ origAttrQ ++
            (proxyBaseUrl ++ "/api/proxy?url=" ++ encodeURIComponent ⟨val⟩).data ++ [q2], rest)
  tryTag "<img".data <|> tryTag "<script".data

/-- `/(<link[^>]*href=["'])([^"']+)(["'])/gi`, skipping already-proxied
URLs. -/
def mLinkResource (proxyBaseUrl : String) (cs : List Char) : Option (List Char × List Char) :=
  match dropLitCI "<link".data cs with
  | none => none
  | some r1 =>
    match lastAttrMatch (parseAttrValue "href=".data) r1 with
    | none => none
    | some (gap, origAttrQ, val, q2, rest) =>
      let origTag := cs.take 5
      if listContains "/api/proxy?url=".data val then
        some (origTag ++ gap ++ origAttrQ ++ val ++ [q2], rest)
      else
        some (origTag ++ gap ++ origAttrQ ++
          (proxyBaseUrl ++ "/api/proxy?url=" ++ encodeURIComponent ⟨val⟩).data ++ [q2], rest)

def rewriteResourceLinks (html proxyBaseUrl : String) : String :=
  replaceScan (mLinkResource proxyBaseUrl)
    (replaceScan (mSrcResource proxyBaseUrl) html)

/-- `/(<a[^>]*href=["'])([^"'#]+)(["'])/gi`, skipping already-proxied /
`javascript:` / `mailto:` / `tel:` / hash links, and rewriting only
hrefs whose parsed origin equals the target origin. -/
def mAnchor (proxyBaseUrl targetOrigin : String) (cs : List Char) :
    Option (List Char × List Char) :=
  match dropLitCI "<a".data cs with
  | none => none
  | some r1 =>
    match lastAttrMatch (parseAttrValueNoHash "href=".data) r1 with
    | none => none
    | some (gap, origAttrQ, val, q2, rest) =>
      let origTag := cs.take 2
      let keep := origTag ++ gap ++ origAttrQ ++ val ++ [q2]
      if listContains "/api/proxy?url=".data val || strStarts ⟨val⟩ "javascript:" ||
         strStarts ⟨val⟩ "mailto:" || strStarts ⟨val⟩ "tel:" || strStarts ⟨val⟩ "#" then
        some (keep, rest)
      else
        match URLModel.parse ⟨val⟩ with
        | some u =>
          if u.origin = targetOrigin then
            some (origTag ++ gap ++ origAttrQ ++
              (proxyBaseUrl ++ "/api/proxy?url=" ++ encodeURIComponent ⟨val⟩).data ++ [q2], rest)
          else some (keep, rest)
        | none => some (keep, rest)

def rewriteAnchorLinks (html proxyBaseUrl targetOrigin : String) : String :=
  replaceScan (mAnchor proxyBaseUrl targetOrigin) html

/-- `rewriteHtmlContent`: relative-URL absolutization, then anchor, form
and resource rewriting.  `none` models the throw of
`new URL(targetUrl)`. -/
def rewriteHtmlContent (html targetUrl proxyBaseUrl : String) : Option String :=
  match URLModel.parse targetUrl with
  | none => none
  | some u =>
    match rewriteRelativeUrls html targetUrl with
    | none => none
    | some r1 =>
      let r2 := rewriteAnchorLinks r1 proxyBaseUrl u.origin
      let r3 := rewriteFormActions r2 proxyBaseUrl
      some (rewriteResourceLinks r3 proxyBaseUrl)

/-! ### `rewriteCssUrls`, `rewriteJsUrls` -/

/-- `/url\s*\(\s*(['"]?)([^'")]+)\1\s*\)/gi` with the classification
callback of `rewriteCssUrls` (skip `data:`, absolutize, proxy-route). -/
def mCssUrl (base : URLModel) (targetUrl proxyBaseUrl : String) (cs : List Char) :
    Option (List Char × List Char) :=
  match dropLitCI "url".data cs with
  | none => none
  | some r1 =>
    match r1.dropWhile isSpaceChar with
    | '(' :: r2 =>
      let r2b := r2.dropWhile isSpaceChar
      let (q, r3) :=
        match r2b with
        | c :: rest => if isQuote c then (some c, rest) else (none, r2b)
        | [] => (none, ([] : List Char))
      match takeWhile1 (fun c => !(isQuote c) && c ≠ ')') r3 with
      | none => none
      | some (val, r4) =>
        let afterRef : Option (List Char) :=
          match q with
          | some qc =>
            match r4 with
            | c :: r5 => if c = qc then some r5 else none
            | [] => none
          | none => some r4
        match afterRef with
        | none => none
        | some r5 =>
          match r5.dropWhile isSpaceChar with
          | ')' :: rest =>
            let whole := cs.take (cs.length - rest.length)
            let quoteChars := (q.map fun c => [c]).getD []
            let mkRepl := fun (abs : String) =>
              "url(".data ++ quoteChars ++
                (proxyBaseUrl ++ "/api/proxy?url=" ++ encodeURIComponent abs).data ++
                quoteChars ++ [')']
            if strStarts ⟨val⟩ "data:" then some (whole, rest)
            else if strStarts ⟨val⟩ "http://" || strStarts ⟨val⟩ "https://" then
              some (mkRepl ⟨val⟩, rest)
            else
              match val with
              | '/' :: '/' :: _ => some (mkRepl ("https:" ++ ⟨val⟩), rest)
              | '/' :: _ => some (mkRepl (base.origin ++ ⟨val⟩), rest)
              | _ =>
                match resolveUrl ⟨val⟩ targetUrl with
                | some abs => some (mkRepl abs, rest)
                | none => some (whole, rest)
          | _ => none
    | _ => none

/-- `rewriteCssUrls(css, targetUrl, proxyBaseUrl)`; `none` models the
throw of `new URL(targetUrl)` (outside the per-match `try`). -/
def rewriteCssUrls (css targetUrl proxyBaseUrl : String) : Option String :=
  (URLModel.parse targetUrl).map fun base =>
    replaceScan (mCssUrl base targetUrl proxyBaseUrl) css

/-- `rewriteJsUrls` is the identity in the source. -/
def rewriteJsUrls (js : String) : String := js

/-! ### Script/CSS injection into HTML -/

/-- Model of `String.prototype.replace(string, string)`: replace the
FIRST occurrence only. -/
def replaceFirstAux (pat repl : List Char) : List Char → List Char
  | [] => []
  | c :: cs =>
    if pat.isPrefixOf (c :: cs) then repl ++ (c :: cs).drop pat.length
    else c :: replaceFirstAux pat repl cs

def replaceFirstStr (s pat repl : String) : String :=
  ⟨replaceFirstAux pat.data repl.data s.data⟩

/-- The navigation-hiding style block injected before `</head>`
(lines 547-556 of the source; braces written as \x7b/\x7d). -/
def hideNavCSS : String :=
  "\n      <style>\n        .primary-navigation \x7b display: none !important; \x7d\n        #page-navbar \x7b display: none !important; \x7d\n        .breadcrumb \x7b display: none !important; \x7d\n        #usernavigation .popover-region-notifications \x7bdisplay: none !important;\x7d\n        #usernavigation .popover-region \x7bdisplay: none !important;\x7d\n        #usernavigation .usermenu-container \x7bdisplay: none !important;\x7d\n      </style>\n    "

/-- `getAjaxInterceptorScript(targetOrigin, proxyBaseUrl)`.  The script
is a client-side template literal interpolating the two parameters; its
JavaScript body is inert data for every verified claim, so it is carried
here as opaque text (abridged) rather than re-transcribed. -/
def getAjaxInterceptorScript (targetOrigin proxyBaseUrl : String) : String :=
  "\n<script>\n(function() \x7b\n  const targetOrigin = \x27" ++ targetOrigin ++
  "\x27;\n  const proxyBaseUrl = \x27" ++ proxyBaseUrl ++
  "\x27;\n  /* runtime interceptor body: patches XMLHttpRequest.open, window.fetch and dynamic script src assignment to route URLs through rewriteUrlForProxy; opaque to the verified claims */\n\x7d)();\n</script>\n"

/-- Matcher for `/(<body[^>]*>)/i`. -/
def mBodyTag (cs : List Char) : Option (List Char × List Char) :=
  match dropLitCI "<body".data cs with
  | none => none
  | some r1 =>
    let inner := r1.takeWhile (· ≠ '>')
    match r1.drop inner.length with
    | '>' :: rest => some (cs.take (5 + inner.length + 1), rest)
    | _ => none

/-- `html.replace(/(<body[^>]*>)/i, "$1" + script)`: first match only. -/
def replaceBodyAux (script : List Char) : List Char → List Char
  | [] => []
  | c :: cs =>
    match mBodyTag (c :: cs) with
    | some (matched, rest) => matched ++ script ++ rest
    | none => c :: replaceBodyAux script cs

/-- `injectAjaxInterceptor(html, script)`. -/
def injectAjaxInterceptor (html script : String) : String :=
  if strIncludes html "</head>" then
    replaceFirstStr html "</head>" (script ++ "</head>")
  else if strIncludes html "<body" then
    ⟨replaceBodyAux script.data html.data⟩
  else
    script ++ html

/-! ### Upstream fetching, redirect following, and the request pipeline -/

inductive Method where
  | GET
  | POST
deriving DecidableEq

/-- The `RequestInit` object built by `proxyRequest` (method, headers,
optional body; `redirect: 'manual'` is implicit in the model: the
network function never follows redirects itself). -/
structure FetchOptions where
  method : Method
  headers : List (String × String)
  body : Option String
deriving DecidableEq

/-- The `fetchOptions` literal of `proxyRequest` (lines 515-527):
`Cookie` is the serialized store, `User-Agent` is
`request.headers.get('user-agent') || ''`, and `Content-Type` is
`'application/x-www-form-urlencoded'` for POST and the empty string
otherwise; the body is attached only for POST with a truthy body. -/
def buildFetchOptions (method : Method) (store : List String) (ua : Option String)
    (body : Option String) : FetchOptions :=
  { method := method
    headers := [("Cookie", getCookieHeader store),
                ("User-Agent", ua.getD ""),
                ("Content-Type",
                  if method = Method.POST then "application/x-www-form-urlencoded" else "")]
    body :=
      match method, body with
      | Method.POST, some b => if b = "" then none else some b
      | _, _ => none }

/-- Header lookup in a header list. -/
def getHeader (hs : List (String × String)) (k : String) : Option String :=
  (hs.find? fun p => p.1 == k).map fun p => p.2

/-- JS object-spread update `{...headers, Cookie: v}`: an existing key
keeps its position with the new value; a new key is appended. -/
def setHeader (hs : List (String × String)) (k v : String) : List (String × String) :=
  if hs.any fun p => p.1 == k then
    hs.map fun p => if p.1 == k then (k, v) else p
  else hs ++ [(k, v)]

/-- The upstream network: `fetch(url, options)`, `none` modelling a
thrown network error.  Responses are returned without following
redirects (`redirect: 'manual'`). -/
def Network : Type := String → FetchOptions → Option Response

/-- One iteration of the `while` loop of `followRedirects`, with `k` the
continuation for the next iteration (after a successful hop fetch).
Every `break` path has already recorded the current response's cookies,
exactly as in the source. -/
def followIter (net : Network) (fo : FetchOptions) (maxRedirects : Nat)
    (k : Response → String → List String → Nat → Response × List String × Nat)
    (resp : Response) (nextUrl : String) (store : List String) (count : Nat) :
    Response × List String × Nat :=
  if 300 ≤ resp.status ∧ resp.status < 400 ∧ count < maxRedirects then
    let store1 := updateCookies store resp
    match resp.location with
    | none => (resp, store1, count)
    | some loc =>
      match resolveUrl loc nextUrl with
      | none => (resp, store1, count)
      | some nextUrl1 =>
        match net nextUrl1
            { fo with headers := setHeader fo.headers "Cookie" (getCookieHeader store1) } with
        | none => (resp, store1, count)
        | some resp1 => k resp1 nextUrl1 store1 (count + 1)
  else (resp, store, count)

/-- The `while` loop of `followRedirects`, on fuel.  The fuel is only a
termination device: the loop guard `count < maxRedirects` exits first
whenever the initial fuel is at least `maxRedirects` (the zero-fuel
continuation below is therefore unreachable from `followRedirects`). -/
def followAux (net : Network) (fo : FetchOptions) (maxRedirects : Nat) :
    Nat → Response → String → List String → Nat → Response × List String × Nat
  | 0 => followIter net fo maxRedirects fun r _ s c => (r, s, c)
  | fuel + 1 => followIter net fo maxRedirects (followAux net fo maxRedirects fuel)

/-- `followRedirects(response, fetchOptions, currentUrl, maxRedirects)`:
returns the final response, the updated cookie store (the source's
mutated `storedCookies`), and the number of redirect hops followed. -/
def followRedirects (net : Network) (fo : FetchOptions) (maxRedirects : Nat)
    (resp0 : Response) (currentUrl : String) (store : List String) :
    Response × List String × Nat :=
  let r := followAux net fo maxRedirects maxRedirects resp0 currentUrl store 0
  (r.1, updateCookies r.2.1 r.1, r.2.2)

/-- What `proxyRequest` returns to the caller: either a JSON error body
with a status, or content with a status and the `Content-Type` response
header chosen by `getResponseHeaders`. -/
inductive ProxyResult where
  | json (error : String) (status : Nat)
  | content (body : String) (status : Nat) (contentType : String)
deriving DecidableEq

def ProxyResult.status : ProxyResult → Nat
  | .json _ s => s
  | .content _ s _ => s

/-- `proxyRequest(request, method, body?)` over an explicit cookie
store; returns the response and the store after the request.  The
`catch` of the source maps any uncaught throw (initial fetch failure,
unparseable target URL) to the 500 JSON error. -/
def proxyRequest (net : Network) (urlParam : Option String) (method : Method)
    (body : Option String) (ua : Option String) (proxyBaseUrl : String)
    (store : List String) : ProxyResult × List String :=
  match urlParam with
  | none => (.json "URL parameter is required" 400, store)
  | some url =>
    let fetchOptions := buildFetchOptions method store ua body
    match net url fetchOptions with
    | none => (.json "Failed to fetch URL" 500, store)
    | some res0 =>
      let fr := followRedirects net fetchOptions 10 res0 url store
      let res := fr.1
      let store1 := fr.2.1
      let contentType := getContentType res
      match URLModel.parse url with
      | none => (.json "Failed to fetch URL" 500, store1)
      | some u =>
        if shouldRewriteHtml contentType then
          match rewriteHtmlContent res.body url proxyBaseUrl with
          | none => (.json "Failed to fetch URL" 500, store1)
          | some h0 =>
            let h1 := replaceFirstStr h0 "</head>" (hideNavCSS ++ "</head>")
            let h2 := injectAjaxInterceptor h1 (getAjaxInterceptorScript u.origin proxyBaseUrl)
            (.content h2 200 contentType, store1)
        else if isCssContent contentType then
          match rewriteCssUrls res.body url proxyBaseUrl with
          | none => (.json "Failed to fetch URL" 500, store1)
          | some css => (.content css res.status contentType, store1)
        else if isJsContent contentType then
          (.content (rewriteJsUrls res.body) res.status contentType, store1)
        else
          (.content res.body res.status contentType, store1)

/-! ### Hop sequence (the chain of responses received during one
logical proxied request), used to state the redirect-bound claim -/

/-- One redirect step as `followRedirects` performs it: read `Location`,
resolve it against the current URL, fetch. -/
def hopStep (netf : String → Option Response) (p : Response × String) :
    Option (Response × String) :=
  match p.1.location with
  | none => none
  | some loc =>
    match resolveUrl loc p.2 with
    | none => none
    | some u1 =>
      match netf u1 with
      | none => none
      | some r1 => some (r1, u1)

/-- `hopSeq netf r0 u0 i`: the `i`-th response/URL pair received
(index 0 is the initial response). -/
def hopSeq (netf : String → Option Response) (r0 : Response) (u0 : String) :
    Nat → Option (Response × String)
  | 0 => some (r0, u0)
  | n + 1 => (hopSeq netf r0 u0 n).bind (hopStep netf)

/-- Is a hop present and a redirect (status in [300, 400))? -/
def isRedirectHop (x : Option (Response × String)) : Bool :=
  match x with
  | none => false
  | some p => decide (300 ≤ p.1.status ∧ p.1.status < 400)

/-! ### Well-formed `Set-Cookie` headers

A real `Set-Cookie` header is `name=value; attributes...`: the `=`
exists and the name before it contains no `;`.  The cookie-replacement
logic of `updateCookies` keys its filter on `name + '='`, which
identifies entries by name exactly on such headers (and fails to on
degenerate strings, see the counterexample for C1). -/

def WellFormedSetCookie (h : String) : Prop :=
  '=' ∈ h.data ∧ ';' ∉ (cookieName h).data

instance (h : String) : Decidable (WellFormedSetCookie h) := by
  unfold WellFormedSetCookie
  infer_instance

/-! ### Concrete scenarios used by the claim theorems and witnesses -/

/-- A degenerate `Set-Cookie` header with no `=`. -/
def exCookieResp : Response := ⟨200, none, ["a"], none, ""⟩

/-- 301 → 302 → 200 chain, each hop setting a distinct cookie. -/
def exChainResp1 : Response := ⟨301, some "https://h/1", ["a=1; Path=/"], none, "B1"⟩

def exChainResp2 : Response := ⟨302, some "https://h/2", ["b=2"], none, "B2"⟩

def exChainResp3 : Response := ⟨200, none, ["c=3"], none, "FINAL"⟩

def exChainNet : Network := fun u _ =>
  if u = "https://h/0" then some exChainResp1
  else if u = "https://h/1" then some exChainResp2
  else if u = "https://h/2" then some exChainResp3
  else none

/-- A redirect whose `Location` header (`https://`) the URL constructor
rejects. -/
def exBadLocResp : Response := ⟨301, some "https://", [], none, "B301"⟩

def exBadLocNet : Network := fun u _ =>
  if u = "https://h/0" then some exBadLocResp else none

/-- A self-redirecting response: every fetch yields it again. -/
def exLoopResp : Response := ⟨301, some "https://h/x", [], none, "LOOP"⟩

def exLoopNetf : String → Option Response := fun _ => some exLoopResp

def exLoopNet : Network := fun _ _ => some exLoopResp

/-- An HTML response with a non-200 upstream status. -/
def exHtmlResp : Response := ⟨404, none, [], some "text/html", "<p>x</p>"⟩

def exHtmlNet : Network := fun u _ => if u = "https://h/" then some exHtmlResp else none

/-- A response with no `Content-Type` header at all. -/
def exNoCtResp : Response := ⟨201, none, [], none, "BYTES"⟩

def exNoCtNet : Network := fun u _ => if u = "https://h/" then some exNoCtResp else none

/-! ## Session Store lemmas (towards claim C1) -/

theorem cookieName_no_eq (c : String) : '=' ∉ (cookieName c).data := by
  intro hmem
  have := List.mem_takeWhile_imp hmem
  simp at this

theorem good_decomp (e : String) (he : '=' ∈ e.data) :
    ∃ t, e.data = (cookieName e).data ++ '=' :: t := by
  have hsplit := List.takeWhile_append_dropWhile (p := fun c => decide (c ≠ '=')) (l := e.data)
  have hhead := List.head?_dropWhile_not (fun c => decide (c ≠ '=')) e.data
  cases hd : e.data.dropWhile (fun c => decide (c ≠ '=')) with
  | nil =>
    rw [hd, List.append_nil] at hsplit
    rw [← hsplit] at he
    have := List.mem_takeWhile_imp he
    simp at this
  | cons x t =>
    rw [hd] at hhead
    simp only [List.head?_cons] at hhead
    have hx : x = '=' := by simpa using hhead
    refine ⟨t, ?_⟩
    rw [← hsplit, hd, hx]
    rfl

theorem isPrefixOf_name_iff (n : List Char) (hn : '=' ∉ n) (e : String) (he : '=' ∈ e.data) :
    (n ++ ['=']).isPrefixOf e.data = true ↔ (cookieName e).data = n := by
  rw [List.isPrefixOf_iff_prefix]
  constructor
  · rintro ⟨t, ht⟩
    have hdata : e.data = n ++ '=' :: t := by
      rw [← ht]; simp
    show (e.data.takeWhile fun c => decide (c ≠ '=')) = n
    rw [hdata, List.takeWhile_append_of_pos ?_]
    · simp [List.takeWhile_cons]
    · intro a ha
      have : a ≠ '=' := fun h => hn (h ▸ ha)
      simpa using this
  · intro hname
    obtain ⟨t, ht⟩ := good_decomp e he
    rw [hname] at ht
    exact ⟨t, by rw [ht]; simp⟩

/-- On a store of genuine `name=value` entries, the prefix-based filter
of `updateCookies` removes exactly the entries named like the incoming
cookie. -/
theorem recordCookie_eq_of_good (store : List String) (h : String)
    (hst : ∀ c ∈ store, '=' ∈ c.data) :
    recordCookie store h =
      (store.filter fun c => !(cookieName c == cookieName h)) ++ [cookieValue h] := by
  unfold recordCookie
  congr 1
  apply List.filter_congr
  intro c hc
  have hiff := isPrefixOf_name_iff (cookieName h).data (cookieName_no_eq h) c (hst c hc)
  have hdata : (cookieName h ++ "=").data = (cookieName h).data ++ ['='] := by simp
  rw [hdata]
  cases hp : ((cookieName h).data ++ ['=']).isPrefixOf c.data with
  | true =>
    have heqd : (cookieName c).data = (cookieName h).data := hiff.mp hp
    have : cookieName c = cookieName h := String.ext heqd
    simp [this]
  | false =>
    suffices hne : cookieName c ≠ cookieName h by simp [hne]
    intro heq
    have : ((cookieName h).data ++ ['=']).isPrefixOf c.data = true := hiff.mpr (by rw [heq])
    rw [hp] at this
    exact Bool.noConfusion this

/-- For a well-formed `Set-Cookie` header, the retained `name=value`
pair has the same name as the header and is itself a genuine entry. -/
theorem cookieValue_good (h : String) (hWF : WellFormedSetCookie h) :
    cookieName (cookieValue h) = cookieName h ∧ '=' ∈ (cookieValue h).data := by
  obtain ⟨t, ht⟩ := good_decomp h hWF.1
  have hnosemi : ∀ a ∈ (cookieName h).data, (fun c => decide (c ≠ ';')) a = true := by
    intro a ha
    have : a ≠ ';' := fun hh => hWF.2 (hh ▸ ha)
    simpa using this
  have hval : (cookieValue h).data =
      (cookieName h).data ++ '=' :: (t.takeWhile fun c => decide (c ≠ ';')) := by
    show (h.data.takeWhile fun c => decide (c ≠ ';')) = _
    rw [ht, List.takeWhile_append_of_pos hnosemi, List.takeWhile_cons]
    simp
  constructor
  · have : (cookieValue h).data.takeWhile (fun c => decide (c ≠ '=')) = (cookieName h).data := by
      rw [hval, List.takeWhile_append_of_pos ?_]
      · simp [List.takeWhile_cons]
      · intro a ha
        have : a ≠ '=' := fun hh => cookieName_no_eq h (hh ▸ ha)
        simpa using this
    apply String.ext
    simpa [cookieName] using this
  · rw [hval]
    simp

/-- `find?` commutes with a filter whose predicate is implied by the
search predicate. -/
theorem find?_filter_of_imp {α : Type} (l : List α) (p q : α → Bool)
    (himp : ∀ a, p a = true → q a = true) :
    (l.filter q).find? p = l.find? p := by
  induction l with
  | nil => simp
  | cons a l ih =>
    cases hq : q a with
    | true =>
      rw [List.filter_cons_of_pos hq]
      cases hp : p a <;> simp [List.find?_cons, hp, ih]
    | false =>
      have hp : p a = false := by
        cases hpa : p a with
        | true => rw [himp a hpa] at hq; exact Bool.noConfusion hq
        | false => rfl
      rw [List.filter_cons_of_neg (by simp [hq])]
      simp [List.find?_cons, hp, ih]

/-- Folding well-formed headers into a store of genuine entries keeps
every entry genuine. -/
theorem foldl_record_good (hs : List String) : ∀ (st : List String),
    (∀ c ∈ st, '=' ∈ c.data) → (∀ h ∈ hs, WellFormedSetCookie h) →
    ∀ c ∈ hs.foldl recordCookie st, '=' ∈ c.data := by
  induction hs with
  | nil => intro st hst _ c hc; exact hst c hc
  | cons h hs ih =>
    intro st hst hWF c hc
    rw [List.foldl_cons] at hc
    refine ih (recordCookie st h) ?_ (fun x hx => hWF x (by simp [hx])) c hc
    intro x hx
    unfold recordCookie at hx
    rcases List.mem_append.mp hx with hx | hx
    · exact hst x (List.mem_filter.mp hx).1
    · rw [List.mem_singleton.mp hx]
      exact (cookieValue_good h (hWF h (by simp))).2

/-- The store lookup after folding a batch of well-formed headers is the
retained pair of the most recently recorded header of that name (`find?`
on the reversed header list), falling back to the prior store. -/
theorem foldl_record_find? (hs : List String) : ∀ (st : List String),
    (∀ h ∈ hs, WellFormedSetCookie h) → (∀ c ∈ st, '=' ∈ c.data) → ∀ n : String,
    (hs.foldl recordCookie st).find? (fun c => cookieName c == n) =
      (match hs.reverse.find? (fun h => cookieName h == n) with
       | some h => some (cookieValue h)
       | none => st.find? (fun c => cookieName c == n)) := by
  induction hs with
  | nil => intro st _ _ n; simp
  | cons h hs ih =>
    intro st hWF hst n
    rw [List.foldl_cons]
    have hWFh : WellFormedSetCookie h := hWF h (by simp)
    have hst' : ∀ c ∈ recordCookie st h, '=' ∈ c.data := by
      intro x hx
      unfold recordCookie at hx
      rcases List.mem_append.mp hx with hx | hx
      · exact hst x (List.mem_filter.mp hx).1
      · rw [List.mem_singleton.mp hx]; exact (cookieValue_good h hWFh).2
    rw [ih (recordCookie st h) (fun x hx => hWF x (by simp [hx])) hst' n]
    have hrev : (h :: hs).reverse = hs.reverse ++ [h] := by simp
    rw [hrev, List.find?_append]
    cases hfind : hs.reverse.find? (fun h' => cookieName h' == n) with
    | some h' => simp
    | none =>
      simp only [Option.none_or]
      rw [recordCookie_eq_of_good st h hst, List.find?_append]
      cases hqh : (cookieName h == n) with
      | true =>
        have hn : cookieName h = n := by simpa using hqh
        have h1 : (st.filter fun c => !(cookieName c == cookieName h)).find?
            (fun c => cookieName c == n) = none := by
          rw [List.find?_eq_none]
          intro x hx hpx
          have hmem := (List.mem_filter.mp hx).2
          have hx2 : cookieName x = n := by simpa using hpx
          rw [← hn] at hx2
          simp [hx2] at hmem
        have h2 : ([cookieValue h].find? fun c => cookieName c == n) =
            some (cookieValue h) := by
          simp [List.find?_cons, (cookieValue_good h hWFh).1, hn]
        rw [h1, h2]
        simp [List.find?_cons, hqh]
      | false =>
        have hne : cookieName h ≠ n := by simpa using hqh
        have h2 : ([cookieValue h].find? fun c => cookieName c == n) = none := by
          simp [List.find?_cons, (cookieValue_good h hWFh).1, hqh]
        have h1 : (st.filter fun c => !(cookieName c == cookieName h)).find?
            (fun c => cookieName c == n) = st.find? (fun c => cookieName c == n) := by
          apply find?_filter_of_imp
          intro a hpa
          have ha : cookieName a = n := by simpa using hpa
          have : cookieName a ≠ cookieName h := by
            rw [ha]; intro hh; exact hne hh.symm
          simp [this]
        rw [h1, h2]
        simp [List.find?_cons, hqh]

/-- Folding well-formed headers into a store with at most one entry per
name keeps at most one entry per name. -/
theorem foldl_record_countP (hs : List String) : ∀ (st : List String),
    (∀ h ∈ hs, WellFormedSetCookie h) → (∀ c ∈ st, '=' ∈ c.data) →
    (∀ n : String, (st.countP fun c => cookieName c == n) ≤ 1) →
    ∀ n : String, ((hs.foldl recordCookie st).countP fun c => cookieName c == n) ≤ 1 := by
  induction hs with
  | nil => intro st _ _ hcount n; exact hcount n
  | cons h hs ih =>
    intro st hWF hst hcount n
    rw [List.foldl_cons]
    have hWFh : WellFormedSetCookie h := hWF h (by simp)
    have hst' : ∀ c ∈ recordCookie st h, '=' ∈ c.data := by
      intro x hx
      unfold recordCookie at hx
      rcases List.mem_append.mp hx with hx | hx
      · exact hst x (List.mem_filter.mp hx).1
      · rw [List.mem_singleton.mp hx]; exact (cookieValue_good h hWFh).2
    refine ih (recordCookie st h) (fun x hx => hWF x (by simp [hx])) hst' ?_ n
    intro m
    rw [recordCookie_eq_of_good st h hst, List.countP_append]
    cases hqm : (cookieName h == m) with
    | true =>
      have hm : cookieName h = m := by simpa using hqm
      have h1 : ((st.filter fun c => !(cookieName c == cookieName h)).countP
          fun c => cookieName c == m) = 0 := by
        rw [List.countP_eq_zero]
        intro a ha hpa
        have hmem := (List.mem_filter.mp ha).2
        have ha2 : cookieName a = m := by simpa using hpa
        rw [← hm] at ha2
        simp [ha2] at hmem
      have h2 : (([cookieValue h].countP fun c => cookieName c == m)) ≤ 1 := by
        simp [List.countP_cons]
        split <;> simp
      omega
    | false =>
      have h2 : (([cookieValue h].countP fun c => cookieName c == m)) = 0 := by
        rw [List.countP_eq_zero]
        intro a ha hpa
        rw [List.mem_singleton.mp ha] at hpa
        rw [(cookieValue_good h hWFh).1] at hpa
        rw [hqm] at hpa
        exact Bool.noConfusion hpa
      have h1 : ((st.filter fun c => !(cookieName c == cookieName h)).countP
          fun c => cookieName c == m) ≤ 1 := by
        calc ((st.filter fun c => !(cookieName c == cookieName h)).countP
              fun c => cookieName c == m)
            = st.countP fun c => (cookieName c == m) && !(cookieName c == cookieName h) := by
              rw [List.countP_filter]
          _ ≤ st.countP fun c => cookieName c == m :=
              List.countP_mono_left (by
                intro x _ hx
                rw [Bool.and_eq_true] at hx
                exact hx.1)
          _ ≤ 1 := hcount m
      omega

/-- A fold of `updateCookies` over responses is a fold of the individual
headers. -/
theorem foldl_updateCookies_eq (rs : List Response) : ∀ (st : List String),
    rs.foldl updateCookies st = (rs.map Response.setCookies).flatten.foldl recordCookie st := by
  induction rs with
  | nil => intro st; simp
  | cons r rs ih =>
    intro st
    rw [List.foldl_cons, List.map_cons, List.flatten_cons, List.foldl_append]
    exact ih (updateCookies st r)

/-- Claim C1 counterexample: over arbitrary `Set-Cookie` strings the
uniqueness invariant fails.  Recording the degenerate header `"a"`
twice (it has no `=`) leaves two entries both named `"a"` in the store,
because the replacement filter keys on `"a="`, which matches neither
entry. -/
theorem C1_counterexample :
    updateCookies (updateCookies [] exCookieResp) exCookieResp = ["a", "a"] ∧
    cookieName "a" = "a" ∧
    ((updateCookies (updateCookies [] exCookieResp) exCookieResp).countP
      fun c => cookieName c == "a") = 2 := by decide

/-- Claim C1 (amended): starting from the empty Session Store, after any
sequence of `updateCookies` calls over well-formed `Set-Cookie` headers
(each contains `=` and its name contains no `;`), the store has at most
one entry per distinct cookie name, and the entry for each name is the
`name=value` pair (substring before the first `;`) of the most recently
recorded header whose name (substring before the first `=`) equals that
name. -/
theorem C1_store_unique_latest (rs : List Response)
    (hWF : ∀ h ∈ (rs.map Response.setCookies).flatten, WellFormedSetCookie h) :
    (∀ n : String, ((rs.foldl updateCookies []).countP fun c => cookieName c == n) ≤ 1) ∧
    (∀ n : String, (rs.foldl updateCookies []).find? (fun c => cookieName c == n) =
      ((rs.map Response.setCookies).flatten.reverse.find? fun h =>
        cookieName h == n).map cookieValue) := by
  rw [foldl_updateCookies_eq]
  constructor
  · intro n
    exact foldl_record_countP _ [] hWF (by simp) (by simp) n
  · intro n
    rw [foldl_record_find? _ [] hWF (by simp) n]
    cases hfind : (rs.map Response.setCookies).flatten.reverse.find?
        (fun h => cookieName h == n) <;> simp

/-- Witness for C1: two well-formed headers for the same name leave one
entry carrying the later value. -/
theorem C1_store_witness :
    ((([⟨200, none, ["sid=1; Path=/"], none, ""⟩,
        ⟨200, none, ["sid=2; HttpOnly"], none, ""⟩] : List Response).foldl
        updateCookies []).countP fun c => cookieName c == "sid") ≤ 1 ∧
    (([⟨200, none, ["sid=1; Path=/"], none, ""⟩,
       ⟨200, none, ["sid=2; HttpOnly"], none, ""⟩] : List Response).foldl
       updateCookies []).find? (fun c => cookieName c == "sid") = some "sid=2" := by
  have h := C1_store_unique_latest
    [⟨200, none, ["sid=1; Path=/"], none, ""⟩, ⟨200, none, ["sid=2; HttpOnly"], none, ""⟩]
    (by decide)
  exact ⟨h.1 "sid", by rw [h.2 "sid"]; decide⟩

/-! ## Redirect-resolver lemmas (towards claim C4) -/

theorem hopSeq_shift (netf : String → Option Response) (r0 : Response) (u0 : String)
    (r1 : Response) (u1 : String) (hstep : hopStep netf (r0, u0) = some (r1, u1)) :
    ∀ i, hopSeq netf r1 u1 i = hopSeq netf r0 u0 (i + 1) := by
  intro i
  induction i with
  | zero => simp [hopSeq, hstep]
  | succ n ih => simp only [hopSeq, ih]

/-- One loop iteration never pushes the hop counter above the bound,
provided the continuation does not. -/
theorem followIter_count_le (net : Network) (fo : FetchOptions) (maxR : Nat)
    (k : Response → String → List String → Nat → Response × List String × Nat)
    (hk : ∀ r u st c, c ≤ maxR → (k r u st c).2.2 ≤ maxR) :
    ∀ r u st count, count ≤ maxR → (followIter net fo maxR k r u st count).2.2 ≤ maxR := by
  intro r u st count hc
  unfold followIter
  split
  · rename_i hcond
    cases hl : r.location with
    | none => exact hc
    | some loc =>
      dsimp only
      cases hres : resolveUrl loc u with
      | none => exact hc
      | some u1 =>
        dsimp only
        cases hnet : net u1 { fo with
            headers := setHeader fo.headers "Cookie" (getCookieHeader (updateCookies st r)) } with
        | none => exact hc
        | some r1 =>
          dsimp only
          exact hk r1 u1 (updateCookies st r) (count + 1) (by omega)
  · exact hc

theorem followAux_count_le (net : Network) (fo : FetchOptions) (maxR : Nat) :
    ∀ (fuel : Nat) (r : Response) (u : String) (st : List String) (count : Nat),
    count ≤ maxR → (followAux net fo maxR fuel r u st count).2.2 ≤ maxR := by
  intro fuel
  induction fuel with
  | zero =>
    exact followIter_count_le net fo maxR _ (fun _ _ _ _ hcc => hcc)
  | succ fuel ih =>
    exact followIter_count_le net fo maxR _ ih

/-- If the first `fuel + 1` received responses are all redirects that
resolve and fetch successfully, the loop runs its fuel out and stops at
the hop bound, returning the response at index `fuel` of the hop
sequence. -/
theorem followAux_chain (netf : String → Option Response) (fo : FetchOptions) (maxR : Nat) :
    ∀ (fuel count : Nat) (r : Response) (u : String) (st : List String),
    count + fuel = maxR →
    (∀ i, i < fuel + 1 → isRedirectHop (hopSeq netf r u i) = true) →
    ∀ r' u', hopSeq netf r u fuel = some (r', u') →
    ∃ st', followAux (fun v _ => netf v) fo maxR fuel r u st count = (r', st', maxR) := by
  intro fuel
  induction fuel with
  | zero =>
    intro count r u st hsum hchain r' u' hseq
    have hpair : r = r' ∧ u = u' := by
      have : some (r, u) = some (r', u') := by simpa [hopSeq] using hseq
      simpa using this
    obtain ⟨rfl, rfl⟩ : r = r' ∧ u = u' := hpair
    refine ⟨st, ?_⟩
    simp only [followAux, followIter]
    rw [if_neg (by rintro ⟨-, -, hlt⟩; omega)]
    have : count = maxR := by omega
    rw [this]
  | succ fuel ih =>
    intro count r u st hsum hchain r' u' hseq
    have h0 : isRedirectHop (hopSeq netf r u 0) = true := hchain 0 (by omega)
    have hred : 300 ≤ r.status ∧ r.status < 400 := by
      simpa [hopSeq, isRedirectHop] using h0
    have h1 : isRedirectHop (hopSeq netf r u 1) = true := hchain 1 (by omega)
    have hs1 : hopSeq netf r u 1 = hopStep netf (r, u) := by simp [hopSeq]
    cases hl : r.location with
    | none =>
      rw [hs1] at h1
      rw [show hopStep netf (r, u) = none by simp [hopStep, hl]] at h1
      simp [isRedirectHop] at h1
    | some loc =>
      cases hres : resolveUrl loc u with
      | none =>
        rw [hs1] at h1
        rw [show hopStep netf (r, u) = none by simp [hopStep, hl, hres]] at h1
        simp [isRedirectHop] at h1
      | some u1 =>
        cases hnet : netf u1 with
        | none =>
          rw [hs1] at h1
          rw [show hopStep netf (r, u) = none by simp [hopStep, hl, hres, hnet]] at h1
          simp [isRedirectHop] at h1
        | some r1 =>
          have hstep : hopStep netf (r, u) = some (r1, u1) := by
            simp [hopStep, hl, hres, hnet]
          have hrec := ih (count + 1) r1 u1 (updateCookies st r) (by omega)
            (by
              intro i hi
              rw [hopSeq_shift netf r u r1 u1 hstep i]
              exact hchain (i + 1) (by omega))
            r' u'
            (by rw [hopSeq_shift netf r u r1 u1 hstep fuel]; exact hseq)
          obtain ⟨st', hst'⟩ := hrec
          refine ⟨st', ?_⟩
          simp only [followAux, followIter]
          rw [if_pos ⟨hred.1, hred.2, by omega⟩]
          simp only [hl, hres, hnet]
          exact hst'

/-- Claim C4: `followRedirects` follows at most 10 redirect hops for
every upstream behaviour; and when every received response is a redirect
(status in [300, 400)) whose `Location` resolves and fetches, it stops
at the bound and returns the 11th response received (`hopSeq ... 10`)
unmodified — the model is total, so no error is raised on this path. -/
theorem C4_redirect_bound :
    (∀ (net : Network) (fo : FetchOptions) (r : Response) (u : String) (st : List String),
      (followRedirects net fo 10 r u st).2.2 ≤ 10) ∧
    (∀ (netf : String → Option Response) (fo : FetchOptions) (r0 : Response) (u0 : String)
        (st : List String),
      (∀ i, i < 11 → isRedirectHop (hopSeq netf r0 u0 i) = true) →
      ∀ r u, hopSeq netf r0 u0 10 = some (r, u) →
        (followRedirects (fun v _ => netf v) fo 10 r0 u0 st).1 = r ∧
        (followRedirects (fun v _ => netf v) fo 10 r0 u0 st).2.2 = 10) := by
  constructor
  · intro net fo r u st
    exact followAux_count_le net fo 10 10 r u st 0 (by omega)
  · intro netf fo r0 u0 st hchain r u hseq
    obtain ⟨st2, hst2⟩ := followAux_chain netf fo 10 10 0 r0 u0 st (by omega)
      (fun i hi => hchain i (by omega)) r u hseq
    unfold followRedirects
    rw [hst2]
    exact ⟨rfl, rfl⟩

/-- Witness for C4: a constant self-redirect loop is cut after exactly
10 hops and the looping response itself is returned. -/
theorem C4_redirect_bound_witness :
    (followRedirects exLoopNet (buildFetchOptions Method.GET [] none none) 10 exLoopResp
      "https://h/x" []).1 = exLoopResp ∧
    (followRedirects exLoopNet (buildFetchOptions Method.GET [] none none) 10 exLoopResp
      "https://h/x" []).2.2 = 10 := by
  have h := C4_redirect_bound.2 exLoopNetf (buildFetchOptions Method.GET [] none none)
    exLoopResp "https://h/x" [] (by decide) exLoopResp "https://h/x" (by decide)
  exact h

/-- Claim C3: on the chain 301 → 302 → 200 with three distinct cookies,
the Session Store accumulates all three (including those set by the
intermediate 3xx responses the caller never sees), `followRedirects`
hands back the final 200 response, and the caller receives only its
body. -/
theorem C3_redirect_chain_cookies :
    proxyRequest exChainNet (some "https://h/0") Method.GET none none "https://p" [] =
      (ProxyResult.content "FINAL" 200 "text/plain", ["a=1", "b=2", "c=3"]) ∧
    (followRedirects exChainNet (buildFetchOptions Method.GET [] none none) 10 exChainResp1
      "https://h/0" []).1 = exChainResp3 := by decide

/-- Claim C5 counterexample: a redirect whose `Location` header cannot
be parsed does NOT produce the 500 JSON error — `followRedirects`
swallows the resolution failure and the proxy passes the redirect
response itself through (here status 301 with its body). -/
theorem C5_counterexample :
    proxyRequest exBadLocNet (some "https://h/0") Method.GET none none "https://p" [] =
      (ProxyResult.content "B301" 301 "text/plain", []) ∧
    (proxyRequest exBadLocNet (some "https://h/0") Method.GET none none "https://p" []).1 ≠
      ProxyResult.json "Failed to fetch URL" 500 := by decide

/-- Claim C5 (amended): a network-level failure of the INITIAL fetch is
surfaced as status 500 with JSON body error "Failed to fetch URL" and no
partial content; failures at later hops (fetch failure or unresolvable
`Location`) instead terminate the redirect chain and the last received
response is processed normally. -/
theorem C5_initial_fetch_failure (net : Network) (url : String) (method : Method)
    (body ua : Option String) (proxyBaseUrl : String) (store : List String)
    (hfail : net url (buildFetchOptions method store ua body) = none) :
    proxyRequest net (some url) method body ua proxyBaseUrl store =
      (ProxyResult.json "Failed to fetch URL" 500, store) := by
  simp only [proxyRequest, hfail]

/-- Witness for C5: a dead network yields the 500 JSON error. -/
theorem C5_initial_fetch_failure_witness :
    proxyRequest (fun _ _ => none) (some "https://h/") Method.GET none none "https://p" [] =
      (ProxyResult.json "Failed to fetch URL" 500, []) :=
  C5_initial_fetch_failure (fun _ _ => none) "https://h/" Method.GET none none "https://p" [] rfl

/-- Claim C6 counterexample: the outbound headers always include
`Content-Type` — as the empty string for GET, and as the form encoding
for POST even when no body is present — contradicting "a Content-Type
header iff the method is POST and a body is present". -/
theorem C6_counterexample :
    getHeader (buildFetchOptions Method.GET [] none none).headers "Content-Type" = some "" ∧
    getHeader (buildFetchOptions Method.POST [] none none).headers "Content-Type" =
      some "application/x-www-form-urlencoded" := by decide

/-- Claim C6 (amended): every outbound request carries `Cookie` equal to
the serialized Session Store, `User-Agent` equal to the inbound
User-Agent (empty string when absent), and a `Content-Type` header that
is `application/x-www-form-urlencoded` whenever the method is POST
(body or not) and the empty string otherwise. -/
theorem C6_outbound_headers (method : Method) (store : List String) (ua body : Option String) :
    getHeader (buildFetchOptions method store ua body).headers "Cookie" =
      some (getCookieHeader store) ∧
    getHeader (buildFetchOptions method store ua body).headers "User-Agent" =
      some (ua.getD "") ∧
    getHeader (buildFetchOptions method store ua body).headers "Content-Type" =
      some (if method = Method.POST then "application/x-www-form-urlencoded" else "") :=
  ⟨rfl, rfl, rfl⟩

/-- Claim C7: for every final (post-redirect) upstream response
classified as HTML the proxy answers with status 200 regardless of the
upstream status; for every final response classified otherwise (CSS,
JavaScript, or binary pass-through) the upstream status is preserved. -/
theorem C7_status_policy (net : Network) (url : String) (method : Method)
    (body ua : Option String) (proxyBaseUrl : String) (store : List String) (r0 : Response)
    (hfetch : net url (buildFetchOptions method store ua body) = some r0)
    (hurl : (URLModel.parse url).isSome = true) :
    (shouldRewriteHtml (getContentType
        (followRedirects net (buildFetchOptions method store ua body) 10 r0 url store).1) =
          true →
      (proxyRequest net (some url) method body ua proxyBaseUrl store).1.status = 200) ∧
    (shouldRewriteHtml (getContentType
        (followRedirects net (buildFetchOptions method store ua body) 10 r0 url store).1) =
          false →
      (proxyRequest net (some url) method body ua proxyBaseUrl store).1.status =
        (followRedirects net (buildFetchOptions method store ua body) 10 r0 url store).1.status) := by
  obtain ⟨u, hu⟩ := Option.isSome_iff_exists.mp hurl
  constructor
  · intro hhtml
    simp only [proxyRequest, hfetch, hu, hhtml]
    simp only [rewriteHtmlContent, rewriteRelativeUrls, hu]
    rfl
  · intro hhtml
    simp only [proxyRequest, hfetch, hu, hhtml]
    cases hcss : isCssContent (getContentType
        (followRedirects net (buildFetchOptions method store ua body) 10 r0 url store).1) with
    | true =>
      simp only [hcss, rewriteCssUrls, hu]
      rfl
    | false =>
      cases hjs : isJsContent (getContentType
          (followRedirects net (buildFetchOptions method store ua body) 10 r0 url store).1) with
      | true => rfl
      | false => rfl

/-- Witness for C7: an HTML 404 comes back as 200; a response without a
content type (binary path) keeps its 201. -/
theorem C7_status_policy_witness :
    (proxyRequest exHtmlNet (some "https://h/") Method.GET none none "https://p" []).1.status =
      200 ∧
    (proxyRequest exNoCtNet (some "https://h/") Method.GET none none "https://p" []).1.status =
      201 := by
  constructor
  · exact (C7_status_policy exHtmlNet "https://h/" Method.GET none none "https://p" []
      exHtmlResp (by decide) (by decide)).1 (by decide)
  · have h := (C7_status_policy exNoCtNet "https://h/" Method.GET none none "https://p" []
      exNoCtResp (by decide) (by decide)).2 (by decide)
    rw [h]
    decide

/-- Claim C10: a final upstream response carrying no `Content-Type`
header is treated as `text/plain`: it takes the binary pass-through path
(no rewriting), its body and status are returned unchanged, and the
response to the caller carries the `Content-Type: text/plain` header. -/
theorem C10_default_content_type (net : Network) (url : String) (method : Method)
    (body ua : Option String) (proxyBaseUrl : String) (store : List String) (r0 : Response)
    (hfetch : net url (buildFetchOptions method store ua body) = some r0)
    (hurl : (URLModel.parse url).isSome = true)
    (hct : (followRedirects net (buildFetchOptions method store ua body) 10 r0 url
      store).1.contentType = none) :
    (proxyRequest net (some url) method body ua proxyBaseUrl store).1 =
      ProxyResult.content
        (followRedirects net (buildFetchOptions method store ua body) 10 r0 url store).1.body
        (followRedirects net (buildFetchOptions method store ua body) 10 r0 url store).1.status
        "text/plain" := by
  obtain ⟨u, hu⟩ := Option.isSome_iff_exists.mp hurl
  have hgct : getContentType
      (followRedirects net (buildFetchOptions method store ua body) 10 r0 url store).1 =
        "text/plain" := by
    simp [getContentType, hct]
  simp only [proxyRequest, hfetch, hu, hgct]
  rw [show shouldRewriteHtml "text/plain" = false from by decide]
  rw [show isCssContent "text/plain" = false from by decide]
  rw [show isJsContent "text/plain" = false from by decide]
  rfl

/-- Witness for C10: a 201 response with no content type is passed
through byte-identically with `Content-Type: text/plain`. -/
theorem C10_default_content_type_witness :
    (proxyRequest exNoCtNet (some "https://h/") Method.GET none none "https://p" []).1 =
      ProxyResult.content "BYTES" 201 "text/plain" := by
  have h := C10_default_content_type exNoCtNet "https://h/" Method.GET none none "https://p" []
    exNoCtResp (by decide) (by decide) (by decide)
  rw [h]
  decide

/-! ## Rewrite-engine matcher soundness (towards claim C2) -/

/-- A matched case-insensitive literal is an initial segment of the
input: the consumed prefix concatenated with the rest reconstructs the
input, and it has the literal's length. -/
theorem dropLitCI_take_append : ∀ (lit cs rest : List Char),
    dropLitCI lit cs = some rest →
    cs.take lit.length ++ rest = cs ∧ (cs.take lit.length).length = lit.length := by
  intro lit
  induction lit with
  | nil =>
    intro cs rest h
    simp only [dropLitCI, Option.some_inj] at h
    subst h
    simp
  | cons l lit ih =>
    intro cs rest h
    cases cs with
    | nil => simp [dropLitCI] at h
    | cons c cs' =>
      unfold dropLitCI at h
      split at h
      · obtain ⟨ih1, ih2⟩ := ih cs' rest h
        refine ⟨?_, ?_⟩
        · simp only [List.length_cons, List.take_succ_cons, List.cons_append]
          rw [ih1]
        · simp only [List.length_cons, List.take_succ_cons, List.length_cons, ih2]
      · exact absurd h (by simp)

/-- A successful `takeWhile1` splits its input. -/
theorem takeWhile1_sound (p : Char → Bool) (cs run rest : List Char)
    (h : takeWhile1 p cs = some (run, rest)) : run ++ rest = cs := by
  simp only [takeWhile1] at h
  split at h
  · exact absurd h (by simp)
  · obtain ⟨hrun, hrest⟩ : cs.takeWhile p = run ∧ cs.drop (cs.takeWhile p).length = rest := by
      have := Option.some.inj h
      exact ⟨congrArg Prod.fst this, congrArg Prod.snd this⟩
    have hpre : cs.takeWhile p = cs.take (cs.takeWhile p).length :=
      List.prefix_iff_eq_take.mp (List.takeWhile_prefix p)
    rw [← hrun, ← hrest]
    nth_rewrite 1 [hpre]
    exact List.take_append_drop _ _

/-- A successful `parseAttrValue` splits its input into the consumed
attribute-plus-quote prefix, the value, the closing quote, and the
rest. -/
theorem parseAttrValue_sound (lit cs aq val : List Char) (q2 : Char) (rest : List Char)
    (h : parseAttrValue lit cs = some (aq, val, q2, rest)) :
    aq ++ val ++ q2 :: rest = cs := by
  unfold parseAttrValue at h
  cases hd : dropLitCI lit cs with
  | none => rw [hd] at h; simp at h
  | some r1 =>
    rw [hd] at h
    cases r1 with
    | nil => simp at h
    | cons q r2 =>
      simp only at h
      split at h
      · cases htw : takeWhile1 (fun c => !(isQuote c)) r2 with
        | none => rw [htw] at h; simp at h
        | some pr =>
          obtain ⟨val0, rest0⟩ := pr
          rw [htw] at h
          cases rest0 with
          | nil => simp at h
          | cons q2' r3 =>
            simp only at h
            split at h
            · have h4 := Option.some.inj h
              simp only [Prod.mk.injEq] at h4
              obtain ⟨h4a, h4b, h4c, h4d⟩ := h4
              subst h4a; subst h4b; subst h4c; subst h4d
              have hd2 := dropLitCI_take_append lit cs (q :: r2) hd
              have htws := takeWhile1_sound _ r2 val0 (q2' :: r3) htw
              have htake : cs.take (lit.length + 1) = cs.take lit.length ++ [q] := by
                conv_lhs => rw [← hd2.1]
                rw [List.take_append_eq_append_take,
                  List.take_of_length_le (by rw [hd2.2]; omega), hd2.2]
                simp
              rw [htake]
              calc (cs.take lit.length ++ [q]) ++ val0 ++ q2' :: r3
                  = cs.take lit.length ++ q :: (val0 ++ q2' :: r3) := by simp
                _ = cs.take lit.length ++ q :: r2 := by rw [htws]
                _ = cs := hd2.1
            · simp at h
      · simp at h

/-- A successful `parseAttrValueNoHash` splits its input the same way. -/
theorem parseAttrValueNoHash_sound (lit cs aq val : List Char) (q2 : Char) (rest : List Char)
    (h : parseAttrValueNoHash lit cs = some (aq, val, q2, rest)) :
    aq ++ val ++ q2 :: rest = cs := by
  unfold parseAttrValueNoHash at h
  cases hd : dropLitCI lit cs with
  | none => rw [hd] at h; simp at h
  | some r1 =>
    rw [hd] at h
    cases r1 with
    | nil => simp at h
    | cons q r2 =>
      simp only at h
      split at h
      · cases htw : takeWhile1 (fun c => !(isQuote c) && c ≠ '#') r2 with
        | none => rw [htw] at h; simp at h
        | some pr =>
          obtain ⟨val0, rest0⟩ := pr
          rw [htw] at h
          cases rest0 with
          | nil => simp at h
          | cons q2' r3 =>
            simp only at h
            split at h
            · have h4 := Option.some.inj h
              simp only [Prod.mk.injEq] at h4
              obtain ⟨h4a, h4b, h4c, h4d⟩ := h4
              subst h4a; subst h4b; subst h4c; subst h4d
              have hd2 := dropLitCI_take_append lit cs (q :: r2) hd
              have htws := takeWhile1_sound _ r2 val0 (q2' :: r3) htw
              have htake : cs.take (lit.length + 1) = cs.take lit.length ++ [q] := by
                conv_lhs => rw [← hd2.1]
                rw [List.take_append_eq_append_take,
                  List.take_of_length_le (by rw [hd2.2]; omega), hd2.2]
                simp
              rw [htake]
              calc (cs.take lit.length ++ [q]) ++ val0 ++ q2' :: r3
                  = cs.take lit.length ++ q :: (val0 ++ q2' :: r3) := by simp
                _ = cs.take lit.length ++ q :: r2 := by rw [htws]
                _ = cs := hd2.1
            · simp at h
      · simp at h

/-- A successful `lastAttrMatch` splits its input into the greedy-star
gap and a tail on which the attribute parser succeeded. -/
theorem lastAttrMatch_sound {α : Type} (p : List Char → Option α) :
    ∀ (cs gap : List Char) (a : α), lastAttrMatch p cs = some (gap, a) →
    ∃ t, gap ++ t = cs ∧ p t = some a := by
  intro cs
  induction cs with
  | nil =>
    intro gap a h
    simp only [lastAttrMatch, Option.map_eq_some'] at h
    obtain ⟨a0, hp0, heq⟩ := h
    simp only [Prod.mk.injEq] at heq
    exact ⟨[], by simp [← heq.1], by rw [hp0, heq.2]⟩
  | cons c cs ih =>
    intro gap a h
    unfold lastAttrMatch at h
    by_cases hc : c = '>'
    · rw [if_pos hc] at h
      simp only [Option.map_eq_some'] at h
      obtain ⟨a0, hp0, heq⟩ := h
      simp only [Prod.mk.injEq] at heq
      exact ⟨c :: cs, by simp [← heq.1], by rw [hp0, heq.2]⟩
    · rw [if_neg hc] at h
      cases hrec : lastAttrMatch p cs with
      | none =>
        rw [hrec] at h
        simp only [Option.map_none', Option.map_eq_some'] at h
        obtain ⟨a0, hp0, heq⟩ := h
        simp only [Prod.mk.injEq] at heq
        exact ⟨c :: cs, by simp [← heq.1], by rw [hp0, heq.2]⟩
      | some x =>
        obtain ⟨g0, a0⟩ := x
        rw [hrec] at h
        simp only [Option.map_some'] at h
        have heq := Option.some.inj h
        simp only [Prod.mk.injEq] at heq
        obtain ⟨hg, ha⟩ := heq
        obtain ⟨t, hgt, hpt⟩ := ih g0 a0 hrec
        refine ⟨t, ?_, by rw [hpt, ha]⟩
        rw [← hg]
        simp [hgt]

/-- Reconstruction: a tag literal, a greedy-star gap and a parsed
attribute/value/quote concatenate back to the matched input. -/
theorem keep_reconstruct {p : List Char → Option (List Char × List Char × Char × List Char)}
    (hp : ∀ t aq val q2 rest, p t = some (aq, val, q2, rest) → aq ++ val ++ q2 :: rest = t)
    (tagLit cs r1 gap aq val : List Char) (q2 : Char) (rest : List Char)
    (h1 : dropLitCI tagLit cs = some r1)
    (h2 : lastAttrMatch p r1 = some (gap, aq, val, q2, rest)) :
    (cs.take tagLit.length ++ gap ++ aq ++ val ++ [q2]) ++ rest = cs := by
  obtain ⟨t, hgt, hpt⟩ := lastAttrMatch_sound p r1 gap (aq, val, q2, rest) h2
  have ht := hp t aq val q2 rest hpt
  have hd := (dropLitCI_take_append tagLit cs r1 h1).1
  calc (cs.take tagLit.length ++ gap ++ aq ++ val ++ [q2]) ++ rest
      = cs.take tagLit.length ++ (gap ++ (aq ++ val ++ q2 :: rest)) := by simp
    _ = cs.take tagLit.length ++ (gap ++ t) := by rw [ht]
    _ = cs.take tagLit.length ++ r1 := by rw [hgt]
    _ = cs := hd

/-- Claim C2 counterexample: the CSS rewriter is NOT idempotent —
applied to its own output it wraps the already-proxied URL a second
time, because the `url()` callback has no already-proxied guard. -/
theorem C2_counterexample :
    rewriteCssUrls "url(/a)" "https://t.example" "https://p.example" =
      some "url(https://p.example/api/proxy?url=https%3A%2F%2Ft.example%2Fa)" ∧
    rewriteCssUrls "url(https://p.example/api/proxy?url=https%3A%2F%2Ft.example%2Fa)"
        "https://t.example" "https://p.example" ≠
      some "url(https://p.example/api/proxy?url=https%3A%2F%2Ft.example%2Fa)" := by decide

set_option maxRecDepth 40000 in
/-- Claim C2 (amended): the stage-4 anchor rewrite and the stage-6
resource-link rewrites are no-ops on EVERY match whose attribute value
already contains `/api/proxy?url=`: for all documents, whenever the
`<a href>`, `<img src>`, `<script src>` or `<link href>` matcher
matches such a value, it returns the consumed segment verbatim (the
emitted replacement concatenated with the rest reconstructs the input),
so in particular `rewriteHtmlContent` is a fixed point on the example
already-rewritten anchor and resource documents; but the stage-5
form-action rewrite (and the CSS rewriter, see the counterexample) has
no such guard and re-wraps already-proxied values, so the engine as a
whole is not idempotent. -/
theorem C2_guarded_stages_fixed_point :
    (∀ (proxyBaseUrl targetOrigin : String) (cs r1 gap aq val : List Char) (q2 : Char)
        (rest : List Char),
      dropLitCI "<a".data cs = some r1 →
      lastAttrMatch (parseAttrValueNoHash "href=".data) r1 = some (gap, aq, val, q2, rest) →
      listContains "/api/proxy?url=".data val = true →
      mAnchor proxyBaseUrl targetOrigin cs =
        some (cs.take 2 ++ gap ++ aq ++ val ++ [q2], rest) ∧
      (cs.take 2 ++ gap ++ aq ++ val ++ [q2]) ++ rest = cs) ∧
    (∀ (proxyBaseUrl : String) (cs r1 gap aq val : List Char) (q2 : Char) (rest : List Char),
      dropLitCI "<img".data cs = some r1 →
      lastAttrMatch (parseAttrValue "src=".data) r1 = some (gap, aq, val, q2, rest) →
      listContains "/api/proxy?url=".data val = true →
      mSrcResource proxyBaseUrl cs = some (cs.take 4 ++ gap ++ aq ++ val ++ [q2], rest) ∧
      (cs.take 4 ++ gap ++ aq ++ val ++ [q2]) ++ rest = cs) ∧
    (∀ (proxyBaseUrl : String) (cs r1 gap aq val : List Char) (q2 : Char) (rest : List Char),
      dropLitCI "<img".data cs = none →
      dropLitCI "<script".data cs = some r1 →
      lastAttrMatch (parseAttrValue "src=".data) r1 = some (gap, aq, val, q2, rest) →
      listContains "/api/proxy?url=".data val = true →
      mSrcResource proxyBaseUrl cs = some (cs.take 7 ++ gap ++ aq ++ val ++ [q2], rest) ∧
      (cs.take 7 ++ gap ++ aq ++ val ++ [q2]) ++ rest = cs) ∧
    (∀ (proxyBaseUrl : String) (cs r1 gap aq val : List Char) (q2 : Char) (rest : List Char),
      dropLitCI "<link".data cs = some r1 →
      lastAttrMatch (parseAttrValue "href=".data) r1 = some (gap, aq, val, q2, rest) →
      listContains "/api/proxy?url=".data val = true →
      mLinkResource proxyBaseUrl cs = some (cs.take 5 ++ gap ++ aq ++ val ++ [q2], rest) ∧
      (cs.take 5 ++ gap ++ aq ++ val ++ [q2]) ++ rest = cs) ∧
    (rewriteHtmlContent
        "<a href=\"https://proxy.example/api/proxy?url=https%3A%2F%2Fsite.example%2Fcourse%2Fview.php%3Fid%3D5\">"
        "https://site.example/course/view.php?id=22" "https://proxy.example" =
      some
        "<a href=\"https://proxy.example/api/proxy?url=https%3A%2F%2Fsite.example%2Fcourse%2Fview.php%3Fid%3D5\">") ∧
    (rewriteHtmlContent
        "<img src=\"https://proxy.example/api/proxy?url=https%3A%2F%2Fsite.example%2Fimg%2Fa.png\">"
        "https://site.example/course/view.php?id=22" "https://proxy.example" =
      some
        "<img src=\"https://proxy.example/api/proxy?url=https%3A%2F%2Fsite.example%2Fimg%2Fa.png\">") ∧
    (rewriteFormActions
        "<form action=\"https://proxy.example/api/proxy?url=https%3A%2F%2Fsite.example%2Flogin.php\">"
        "https://proxy.example" ≠
      "<form action=\"https://proxy.example/api/proxy?url=https%3A%2F%2Fsite.example%2Flogin.php\">") := by
  refine ⟨?_, ?_, ?_, ?_, by decide, by decide, by decide⟩
  · intro proxyBaseUrl targetOrigin cs r1 gap aq val q2 rest h1 h2 h3
    refine ⟨?_, ?_⟩
    · unfold mAnchor
      rw [h1]
      dsimp only
      rw [h2]
      dsimp only
      simp [h3]
    · exact keep_reconstruct (parseAttrValueNoHash_sound "href=".data)
        "<a".data cs r1 gap aq val q2 rest h1 h2
  · intro proxyBaseUrl cs r1 gap aq val q2 rest h1 h2 h3
    refine ⟨?_, ?_⟩
    · unfold mSrcResource
      dsimp only
      rw [h1]
      dsimp only
      rw [h2]
      dsimp only
      simp [h3]
    · exact keep_reconstruct (parseAttrValue_sound "src=".data)
        "<img".data cs r1 gap aq val q2 rest h1 h2
  · intro proxyBaseUrl cs r1 gap aq val q2 rest h0 h1 h2 h3
    refine ⟨?_, ?_⟩
    · unfold mSrcResource
      dsimp only
      rw [h0]
      dsimp only
      rw [h1]
      dsimp only
      rw [h2]
      dsimp only
      simp [h3]
    · exact keep_reconstruct (parseAttrValue_sound "src=".data)
        "<script".data cs r1 gap aq val q2 rest h1 h2
  · intro proxyBaseUrl cs r1 gap aq val q2 rest h1 h2 h3
    refine ⟨?_, ?_⟩
    · unfold mLinkResource
      rw [h1]
      dsimp only
      rw [h2]
      dsimp only
      simp [h3]
    · exact keep_reconstruct (parseAttrValue_sound "href=".data)
        "<link".data cs r1 gap aq val q2 rest h1 h2

/-- Witness for C2: a concrete already-proxied anchor match and an
already-proxied link match are each returned verbatim by their
matchers. -/
theorem C2_guarded_stages_fixed_point_witness :
    mAnchor "https://p" "https://t" ("<a href=\"/api/proxy?url=x\">".data) =
      some ("<a href=\"/api/proxy?url=x\"".data, ['>']) ∧
    mLinkResource "https://p" ("<link href=\"/api/proxy?url=x\">".data) =
      some ("<link href=\"/api/proxy?url=x\"".data, ['>']) := by
  constructor
  · have h := (C2_guarded_stages_fixed_point.1 "https://p" "https://t"
      ("<a href=\"/api/proxy?url=x\">".data) (" href=\"/api/proxy?url=x\">".data)
      [' '] ("href=\"".data) ("/api/proxy?url=x".data) '"' ['>']
      (by decide) (by decide) (by decide)).1
    exact h.trans (by decide)
  · have h := (C2_guarded_stages_fixed_point.2.2.2.1 "https://p"
      ("<link href=\"/api/proxy?url=x\">".data) (" href=\"/api/proxy?url=x\">".data)
      [' '] ("href=\"".data) ("/api/proxy?url=x".data) '"' ['>']
      (by decide) (by decide) (by decide)).1
    exact h.trans (by decide)

/-- Claim C8: the reference anchor rewrite. -/
theorem C8_anchor_rewrite :
    rewriteHtmlContent "<a href=\"/course/view.php?id=5\">"
        "https://site.example/course/view.php?id=22" "https://proxy.example" =
      some
        "<a href=\"https://proxy.example/api/proxy?url=https%3A%2F%2Fsite.example%2Fcourse%2Fview.php%3Fid%3D5\">" := by
  decide

/-- Claim C9: the reference CSS rewrite. -/
theorem C9_css_url_rewrite :
    rewriteCssUrls "body\x7bbackground:url(/img/bg.png)\x7d"
        "https://site.example/course/view.php?id=22" "https://proxy.example" =
      some
        "body\x7bbackground:url(https://proxy.example/api/proxy?url=https%3A%2F%2Fsite.example%2Fimg%2Fbg.png)\x7d" := by
  decide

end Proxy
